import Mathlib

/-!
Verification of the room coordinator in `src/party/server.ts`
(polislike-partykit-reaction-canvas).

Shallow embedding conventions:
* JS numbers (timestamps, vote values, cursor coordinates) are modelled as `ℚ`;
  content/statement ids are modelled as `Int` (the sentinel is `-1`).
* `Date.now()` becomes an explicit `now` argument.  A handler that calls
  `Date.now()` several times in one synchronous run is modelled with a single
  `now` (the coordinator is single-threaded; the calls happen in one tick).
* `this.room.broadcast(JSON.stringify(msg))` becomes a returned `OutMsg` value
  (or a list of them); state mutation becomes explicit state passing.
* `Math.random()` draws are explicit input parameters.
* JavaScript's stable descending sort followed by `[0]` is embedded as a fold
  that keeps the first element attaining the maximal `displayTimestamp`
  (`pickLatest`): for a stable sort with comparator
  `(a, b) => b.displayTimestamp - a.displayTimestamp`, the head of the sorted
  list is exactly the first maximal element of the original list.
-/

namespace ReactionCanvas

/-- `QueueItem` from `server.ts`: `{ statementId, displayTimestamp }`. -/
structure QueueItem where
  statementId : Int
  displayTimestamp : ℚ
  deriving DecidableEq, Repr

/-- One step of the "first maximal `displayTimestamp`" fold.  Mirrors the head
of the stable descending sort `sort((a, b) => b.displayTimestamp - a.displayTimestamp)`
used in `getCurrentActiveStatementId` and `clearQueue`: on ties the earlier
element of the list is kept, exactly as a stable sort would. -/
def pickLatest (acc : Option QueueItem) (item : QueueItem) : Option QueueItem :=
  match acc with
  | none => some item
  | some best =>
      if best.displayTimestamp < item.displayTimestamp then some item else some best

/-- `allSelectedStatements.filter(item => item.displayTimestamp <= now)`
followed by the stable descending sort, returning the head (`[0]`) of the
sorted list when it exists. -/
def mostRecentDisplayed (queue : List QueueItem) (now : ℚ) : Option QueueItem :=
  (queue.filter (fun item => item.displayTimestamp ≤ now)).foldl pickLatest none

/-- `getCurrentActiveStatementId` (`server.ts:159-172`): the `statementId` of
the most recently displayed queue item, defaulting to statement `1` when no
item has `displayTimestamp <= now`. -/
def getCurrentActiveStatementId (queue : List QueueItem) (now : ℚ) : Int :=
  match mostRecentDisplayed queue now with
  | some item => item.statementId
  | none => 1

/-- `clearQueue` (`server.ts:174-192`): keep only the most recent past
statement (the currently active one) and drop everything else. -/
def clearQueue (queue : List QueueItem) (now : ℚ) : List QueueItem :=
  match mostRecentDisplayed queue now with
  | some item => [item]
  | none => []

/-- Messages the server broadcasts to the room
(`this.room.broadcast(JSON.stringify({...}))` payloads). -/
inductive OutMsg where
  | activeStatementChanged (statementId : Int)
  | queueUpdated (allSelectedStatements : List QueueItem) (currentTime : ℚ)
  | removeCursor (userId : String) (timestamp : ℚ)
  | ghostCursorsChanged (enabled : Bool)
  deriving DecidableEq, Repr

/-- `queueStatement` (`server.ts:133-157`): computes the `displayTimestamp`
(immediate when the derived active statement is the sentinel `-1`, otherwise
`now + 10000`), appends the item, and broadcasts the full updated queue
together with the broadcast instant. -/
def queueStatement (queue : List QueueItem) (statementId : Int) (now : ℚ) :
    List QueueItem × OutMsg :=
  let currentActiveStatement := getCurrentActiveStatementId queue now
  let displayTimestamp : ℚ :=
    if currentActiveStatement = -1 then now else now + 10000
  let queueItem : QueueItem := ⟨statementId, displayTimestamp⟩
  let newQueue := queue ++ [queueItem]
  (newQueue, OutMsg.queueUpdated newQueue now)

/-! ### Lemmas about the "first maximal element" fold -/

lemma foldl_pickLatest_spec (l : List QueueItem) :
    ∀ b : QueueItem, ∃ m, l.foldl pickLatest (some b) = some m ∧
      (m = b ∨ m ∈ l) ∧ b.displayTimestamp ≤ m.displayTimestamp ∧
      ∀ j ∈ l, j.displayTimestamp ≤ m.displayTimestamp := by
  induction l with
  | nil =>
      intro b
      exact ⟨b, rfl, Or.inl rfl, le_refl _, by simp⟩
  | cons x xs ih =>
      intro b
      by_cases h : b.displayTimestamp < x.displayTimestamp
      · obtain ⟨m, hm, hmem, hle, hall⟩ := ih x
        refine ⟨m, ?_, ?_, ?_, ?_⟩
        · simpa [pickLatest, h] using hm
        · rcases hmem with rfl | hmel
          · exact Or.inr (List.mem_cons_self _ _)
          · exact Or.inr (List.mem_cons_of_mem _ hmel)
        · exact le_of_lt (lt_of_lt_of_le h hle)
        · intro j hj
          rcases List.mem_cons.mp hj with rfl | hjx
          · exact hle
          · exact hall j hjx
      · obtain ⟨m, hm, hmem, hle, hall⟩ := ih b
        refine ⟨m, ?_, ?_, hle, ?_⟩
        · simpa [pickLatest, h] using hm
        · rcases hmem with rfl | hmel
          · exact Or.inl rfl
          · exact Or.inr (List.mem_cons_of_mem _ hmel)
        · intro j hj
          rcases List.mem_cons.mp hj with rfl | hjx
          · exact le_trans (le_of_not_lt h) hle
          · exact hall j hjx

lemma mostRecentDisplayed_eq_none_iff (queue : List QueueItem) (now : ℚ) :
    mostRecentDisplayed queue now = none ↔
      queue.filter (fun item => item.displayTimestamp ≤ now) = [] := by
  unfold mostRecentDisplayed
  cases hl : queue.filter (fun item => item.displayTimestamp ≤ now) with
  | nil => simp
  | cons x xs =>
      obtain ⟨m, hm, -, -, -⟩ := foldl_pickLatest_spec xs x
      simp only [List.foldl_cons, pickLatest]
      rw [hm]
      simp

lemma mostRecentDisplayed_spec (queue : List QueueItem) (now : ℚ) (m : QueueItem)
    (h : mostRecentDisplayed queue now = some m) :
    m ∈ queue ∧ m.displayTimestamp ≤ now ∧
      ∀ j ∈ queue, j.displayTimestamp ≤ now →
        j.displayTimestamp ≤ m.displayTimestamp := by
  unfold mostRecentDisplayed at h
  cases hl : queue.filter (fun item => item.displayTimestamp ≤ now) with
  | nil => rw [hl] at h; simp at h
  | cons x xs =>
      rw [hl] at h
      obtain ⟨m', hm', hmem, hle, hall⟩ := foldl_pickLatest_spec xs x
      simp only [List.foldl_cons, pickLatest] at h
      rw [hm'] at h
      have heq : m' = m := by simpa using h
      subst heq
      have hmfil : m' ∈ queue.filter (fun item => item.displayTimestamp ≤ now) := by
        rw [hl]
        rcases hmem with rfl | hmel
        · exact List.mem_cons_self _ _
        · exact List.mem_cons_of_mem _ hmel
      have hmq := List.mem_of_mem_filter hmfil
      have hmle : m'.displayTimestamp ≤ now := by
        have := List.of_mem_filter hmfil
        simpa using this
      refine ⟨hmq, hmle, ?_⟩
      intro j hj hjle
      have hjfil : j ∈ queue.filter (fun item => item.displayTimestamp ≤ now) :=
        List.mem_filter.mpr ⟨hj, by simpa using hjle⟩
      rw [hl] at hjfil
      rcases List.mem_cons.mp hjfil with rfl | hjx
      · exact hle
      · exact hall j hjx

lemma mostRecentDisplayed_eq_some (queue : List QueueItem) (now : ℚ)
    (h : queue.filter (fun item => item.displayTimestamp ≤ now) ≠ []) :
    ∃ m, mostRecentDisplayed queue now = some m := by
  cases hm : mostRecentDisplayed queue now with
  | none => exact absurd ((mostRecentDisplayed_eq_none_iff queue now).mp hm) h
  | some m => exact ⟨m, rfl⟩

lemma filter_le_eq_nil (queue : List QueueItem) (t : ℚ)
    (h : ∀ item ∈ queue, ¬ item.displayTimestamp ≤ t) :
    queue.filter (fun item => item.displayTimestamp ≤ t) = [] := by
  rw [List.filter_eq_nil_iff]
  intro a ha
  simpa using h a ha

lemma filter_le_idem (queue : List QueueItem) (t : ℚ) :
    (queue.filter (fun item => item.displayTimestamp ≤ t)).filter
        (fun item => item.displayTimestamp ≤ t) =
      queue.filter (fun item => item.displayTimestamp ≤ t) := by
  simp [List.filter_filter]

lemma mostRecentDisplayed_singleton (m : QueueItem) (now : ℚ)
    (h : m.displayTimestamp ≤ now) :
    mostRecentDisplayed [m] now = some m := by
  simp [mostRecentDisplayed, pickLatest, h]

/-- C1: `deriveActiveId` (`getCurrentActiveStatementId`) returns the
`statementId` of the queue item with the greatest `displayTimestamp` not
exceeding `t`, returns the fallback id `1` when no item has
`displayTimestamp <= t`, and depends only on the items with
`displayTimestamp <= t` (being a pure function of the queue and the time it
is deterministic). -/
theorem deriveActiveId_correct (queue : List QueueItem) (t : ℚ) :
    ((∀ item ∈ queue, ¬ item.displayTimestamp ≤ t) →
        getCurrentActiveStatementId queue t = 1)
  ∧ ((∃ item ∈ queue, item.displayTimestamp ≤ t) →
        ∃ item, item ∈ queue ∧ item.displayTimestamp ≤ t ∧
          getCurrentActiveStatementId queue t = item.statementId ∧
          ∀ j ∈ queue, j.displayTimestamp ≤ t →
            j.displayTimestamp ≤ item.displayTimestamp)
  ∧ getCurrentActiveStatementId queue t =
      getCurrentActiveStatementId
        (queue.filter (fun item => item.displayTimestamp ≤ t)) t := by
  refine ⟨?_, ?_, ?_⟩
  · intro hnone
    have hfil := filter_le_eq_nil queue t hnone
    unfold getCurrentActiveStatementId
    rw [(mostRecentDisplayed_eq_none_iff queue t).mpr hfil]
  · rintro ⟨item, hitem, hle⟩
    have hne : queue.filter (fun item => item.displayTimestamp ≤ t) ≠ [] :=
      List.ne_nil_of_mem (List.mem_filter.mpr ⟨hitem, by simpa using hle⟩)
    obtain ⟨m, hm⟩ := mostRecentDisplayed_eq_some queue t hne
    obtain ⟨hmq, hmle, hmax⟩ := mostRecentDisplayed_spec queue t m hm
    refine ⟨m, hmq, hmle, ?_, hmax⟩
    unfold getCurrentActiveStatementId
    rw [hm]
  · unfold getCurrentActiveStatementId mostRecentDisplayed
    rw [filter_le_idem]

/-- C2: `queueStatement` appends an item whose `displayTimestamp` is `now`
when the derived active id is the sentinel `-1`, and `now + 10000` otherwise;
in both cases it broadcasts the full updated queue together with the
broadcast instant. -/
theorem queueStatement_enqueue (queue : List QueueItem) (statementId : Int) (now : ℚ) :
    (getCurrentActiveStatementId queue now = -1 →
        (queueStatement queue statementId now).1 = queue ++ [⟨statementId, now⟩])
  ∧ (getCurrentActiveStatementId queue now ≠ -1 →
        (queueStatement queue statementId now).1 =
          queue ++ [⟨statementId, now + 10000⟩])
  ∧ (queueStatement queue statementId now).2 =
      OutMsg.queueUpdated (queueStatement queue statementId now).1 now := by
  refine ⟨?_, ?_, ?_⟩
  · intro h
    simp [queueStatement, h]
  · intro h
    simp [queueStatement, h]
  · rfl

/-- C4: `clearQueue` removes every item with `displayTimestamp > now` and
keeps exactly the single most-recently-activated past item (empty result
when no past item exists); consequently the derived active id at `now` is
unchanged by the call. -/
theorem clearQueue_correct (queue : List QueueItem) (now : ℚ) :
    (∀ item ∈ clearQueue queue now, item.displayTimestamp ≤ now)
  ∧ (∀ item ∈ clearQueue queue now, item ∈ queue)
  ∧ ((∀ item ∈ queue, ¬ item.displayTimestamp ≤ now) → clearQueue queue now = [])
  ∧ ((∃ item ∈ queue, item.displayTimestamp ≤ now) →
        ∃ m, clearQueue queue now = [m] ∧ m ∈ queue ∧ m.displayTimestamp ≤ now ∧
          ∀ j ∈ queue, j.displayTimestamp ≤ now →
            j.displayTimestamp ≤ m.displayTimestamp)
  ∧ getCurrentActiveStatementId (clearQueue queue now) now =
      getCurrentActiveStatementId queue now := by
  cases hm : mostRecentDisplayed queue now with
  | none =>
      have hclear : clearQueue queue now = [] := by
        unfold clearQueue
        rw [hm]
      have hfil := (mostRecentDisplayed_eq_none_iff queue now).mp hm
      refine ⟨?_, ?_, ?_, ?_, ?_⟩
      · simp [hclear]
      · simp [hclear]
      · intro _
        exact hclear
      · rintro ⟨item, hitem, hle⟩
        exact absurd hfil
          (List.ne_nil_of_mem (List.mem_filter.mpr ⟨hitem, by simpa using hle⟩))
      · rw [hclear]
        unfold getCurrentActiveStatementId
        rw [hm]
        rfl
  | some m =>
      obtain ⟨hmq, hmle, hmax⟩ := mostRecentDisplayed_spec queue now m hm
      have hclear : clearQueue queue now = [m] := by
        unfold clearQueue
        rw [hm]
      refine ⟨?_, ?_, ?_, ?_, ?_⟩
      · intro item hitem
        rw [hclear] at hitem
        obtain rfl : item = m := by simpa using hitem
        exact hmle
      · intro item hitem
        rw [hclear] at hitem
        obtain rfl : item = m := by simpa using hitem
        exact hmq
      · intro hnone
        exact absurd hmle (hnone m hmq)
      · intro _
        exact ⟨m, hclear, hmq, hmle, hmax⟩
      · rw [hclear]
        unfold getCurrentActiveStatementId
        rw [hm, mostRecentDisplayed_singleton m now hmle]

/-- C5: `clearQueue` is idempotent: a second call (at the same or any later
time) returns the queue produced by the first call unchanged. -/
theorem clearQueue_idempotent (queue : List QueueItem) (now now' : ℚ)
    (h : now ≤ now') :
    clearQueue (clearQueue queue now) now' = clearQueue queue now := by
  cases hm : mostRecentDisplayed queue now with
  | none =>
      have hclear : clearQueue queue now = [] := by
        unfold clearQueue
        rw [hm]
      rw [hclear]
      rfl
  | some m =>
      obtain ⟨-, hmle, -⟩ := mostRecentDisplayed_spec queue now m hm
      have hclear : clearQueue queue now = [m] := by
        unfold clearQueue
        rw [hm]
      rw [hclear]
      unfold clearQueue
      rw [mostRecentDisplayed_singleton m now' (le_trans hmle h)]

/-- Witness for C5: the hypothesis `now ≤ now'` discharged at a concrete
queue and time. -/
theorem clearQueue_idempotent_witness :
    clearQueue (clearQueue [⟨5, 10⟩, ⟨7, 30⟩] 20) 20 =
      clearQueue [⟨5, 10⟩, ⟨7, 30⟩] 20 :=
  clearQueue_idempotent [⟨5, 10⟩, ⟨7, 30⟩] 20 20 le_rfl

/-! ### Response ledger (`onRequest`, `server.ts:446-513`) -/

/-- `Vote` as stored in `this.votes`: `{ userId, statementId, vote, timestamp }`. -/
structure Vote where
  userId : String
  statementId : Int
  vote : ℚ
  timestamp : ℚ
  deriving DecidableEq, Repr

/-- The JSON body of a `POST /vote` request as parsed.  A field holding a
non-number (or missing) is `none`; a falsy `userId` (absent or empty) is
`""`; a missing or falsy `timestamp` is `none` or `some 0`. -/
structure VoteData where
  userId : String
  statementId : Option Int
  vote : Option ℚ
  timestamp : Option ℚ
  deriving DecidableEq, Repr

/-- The HTTP response of the `POST /vote` branch: `400 "Invalid vote data"`
or `200 {success: true, voteCount}`. -/
inductive VoteResponse where
  | invalidVote
  | voteStored (voteCount : ℕ)
  deriving DecidableEq, Repr

/-- HTTP status code of a `POST /vote` response. -/
def VoteResponse.status : VoteResponse → ℕ
  | .invalidVote => 400
  | .voteStored _ => 200

/-- The `POST /vote` branch of `onRequest` (`server.ts:450-488`): validate
(`userId` truthy, `statementId` and `vote` numbers, `vote` in `{-1,0,1}`),
fill a falsy `timestamp` with `Date.now()`, append and answer with the new
total count; on validation failure answer `400` and leave the ledger
unchanged. -/
def handleVote (votes : List Vote) (d : VoteData) (now : ℚ) :
    List Vote × VoteResponse :=
  match d.statementId, d.vote with
  | some sid, some v =>
      if d.userId = "" ∨ ¬ (v = -1 ∨ v = 0 ∨ v = 1) then
        (votes, VoteResponse.invalidVote)
      else
        let ts : ℚ :=
          match d.timestamp with
          | none => now
          | some t => if t = 0 then now else t
        let newVotes := votes ++
          [{ userId := d.userId, statementId := sid, vote := v, timestamp := ts }]
        (newVotes, VoteResponse.voteStored newVotes.length)
  | _, _ => (votes, VoteResponse.invalidVote)

/-- The `GET /votes` branch of `onRequest` (`server.ts:490-496`): return
the full ledger. -/
def listAllVotes (votes : List Vote) : List Vote := votes

/-- The JSON body of the `DELETE /votes` response
(`server.ts:503`): `{ success: true, message: "All votes cleared" }`. -/
structure ClearVotesResponse where
  success : Bool
  message : String
  deriving DecidableEq, Repr

/-- The `DELETE /votes` branch of `onRequest` (`server.ts:498-506`): empty
the ledger and answer with a fixed success body. -/
def clearVotes (votes : List Vote) : List Vote × ClearVotesResponse :=
  (([] : List Vote), { success := true, message := "All votes cleared" })

/-- Validity of a submitted vote record, as the source checks it. -/
def validVoteData (d : VoteData) : Prop :=
  d.userId ≠ "" ∧ d.statementId.isSome ∧
    (d.vote = some (-1) ∨ d.vote = some 0 ∨ d.vote = some 1)

/-- C3: `submit` accepts a record iff `userId` is non-empty, `statementId`
is numeric and `vote ∈ {-1,0,1}`; on success it appends the record and
returns the new total count (status 200); on failure it returns status 400
and the ledger is unchanged, so a value outside `{-1,0,1}` never enters the
ledger. -/
theorem submitVote_correct (votes : List Vote) (d : VoteData) (now : ℚ) :
    (¬ validVoteData d →
        handleVote votes d now = (votes, VoteResponse.invalidVote) ∧
        (handleVote votes d now).2.status = 400)
  ∧ (validVoteData d →
        ∃ sid v ts, d.statementId = some sid ∧ d.vote = some v ∧
          (v = -1 ∨ v = 0 ∨ v = 1) ∧
          (handleVote votes d now).1 = votes ++
            [{ userId := d.userId, statementId := sid, vote := v, timestamp := ts }] ∧
          (handleVote votes d now).2 = VoteResponse.voteStored (votes.length + 1) ∧
          (handleVote votes d now).2.status = 200)
  ∧ ((∀ w ∈ votes, w.vote = -1 ∨ w.vote = 0 ∨ w.vote = 1) →
        ∀ w ∈ listAllVotes (handleVote votes d now).1,
          w.vote = -1 ∨ w.vote = 0 ∨ w.vote = 1) := by
  refine ⟨?_, ?_, ?_⟩
  · intro hinv
    cases hsid : d.statementId with
    | none => simp [handleVote, hsid, VoteResponse.status]
    | some sid =>
        cases hv : d.vote with
        | none => simp [handleVote, hsid, hv, VoteResponse.status]
        | some v =>
            have hbad : d.userId = "" ∨ ¬ (v = -1 ∨ v = 0 ∨ v = 1) := by
              by_contra hc
              push_neg at hc
              exact hinv ⟨hc.1, by simp [hsid], by
                rcases hc.2 with h | h | h <;> simp [hv, h]⟩
            simp only [handleVote, hsid, hv]
            rw [if_pos hbad]
            simp [VoteResponse.status]
  · rintro ⟨hu, hsid, hv⟩
    obtain ⟨sid, hsid'⟩ := Option.isSome_iff_exists.mp hsid
    have hvcase : ∃ v, d.vote = some v ∧ (v = -1 ∨ v = 0 ∨ v = 1) := by
      rcases hv with h | h | h
      · exact ⟨-1, h, Or.inl rfl⟩
      · exact ⟨0, h, Or.inr (Or.inl rfl)⟩
      · exact ⟨1, h, Or.inr (Or.inr rfl)⟩
    obtain ⟨v, hv', hvmem⟩ := hvcase
    have hcond : ¬ (d.userId = "" ∨ ¬ (v = -1 ∨ v = 0 ∨ v = 1)) := by
      push_neg
      exact ⟨hu, hvmem⟩
    refine ⟨sid, v, ?_, hsid', hv', hvmem, ?_, ?_, ?_⟩
    · exact match d.timestamp with
        | none => now
        | some t => if t = 0 then now else t
    · simp only [handleVote, hsid', hv']
      rw [if_neg hcond]
    · simp only [handleVote, hsid', hv']
      rw [if_neg hcond]
      simp
    · simp only [handleVote, hsid', hv']
      rw [if_neg hcond]
      simp [VoteResponse.status]
  · intro hall w hw
    simp only [listAllVotes] at hw
    cases hsid : d.statementId with
    | none =>
        rw [handleVote] at hw
        simp only [hsid] at hw
        exact hall w hw
    | some sid =>
        cases hv : d.vote with
        | none =>
            rw [handleVote] at hw
            simp only [hsid, hv] at hw
            exact hall w hw
        | some v =>
            rw [handleVote] at hw
            simp only [hsid, hv] at hw
            by_cases hc : d.userId = "" ∨ ¬ (v = -1 ∨ v = 0 ∨ v = 1)
            · rw [if_pos hc] at hw
              exact hall w hw
            · rw [if_neg hc] at hw
              push_neg at hc
              rcases List.mem_append.mp hw with hwl | hwr
              · exact hall w hwl
              · obtain rfl : w = _ := by simpa using hwr
                exact hc.2
  -- (the source stores `voteData` itself; `timestamp` is filled before push)

/-- Counterexample for C8: the `DELETE /votes` response body is identical
for ledgers of different sizes (it is the constant
`{success: true, message: "All votes cleared"}`), so it cannot return the
pre-clear count of records. -/
theorem clearVotes_count_counterexample :
    (clearVotes [⟨"u1", 5, 1, 100⟩]).2 =
      (clearVotes [⟨"u1", 5, 1, 100⟩, ⟨"u2", 5, -1, 200⟩]).2 ∧
    ([⟨"u1", 5, 1, 100⟩] : List Vote).length ≠
      ([⟨"u1", 5, 1, 100⟩, ⟨"u2", 5, -1, 200⟩] : List Vote).length := by
  exact ⟨rfl, by decide⟩

/-- C8 (amended): `clearAll` on the response ledger empties the ledger and
returns a fixed success confirmation `{success: true, message: "All votes
cleared"}`; the pre-clear count is only logged server-side, not returned. -/
theorem clearVotes_correct (votes : List Vote) :
    (clearVotes votes).1 = [] ∧
    (clearVotes votes).2 =
      { success := true, message := "All votes cleared" } :=
  ⟨rfl, rfl⟩

/-- C10: for a record that passes validation, a falsy provided timestamp
(`0` or absent) is overwritten with the current time, while any non-zero
provided timestamp is stored unchanged. -/
theorem submitVote_timestamp (votes : List Vote) (d : VoteData) (now : ℚ)
    (sid : Int) (v : ℚ) (hsid : d.statementId = some sid) (hv : d.vote = some v)
    (hu : ¬ d.userId = "") (hval : v = -1 ∨ v = 0 ∨ v = 1) :
    (d.timestamp = some 0 →
        (handleVote votes d now).1 = votes ++
          [{ userId := d.userId, statementId := sid, vote := v, timestamp := now }])
  ∧ (∀ t, d.timestamp = some t → t ≠ 0 →
        (handleVote votes d now).1 = votes ++
          [{ userId := d.userId, statementId := sid, vote := v, timestamp := t }])
  ∧ (d.timestamp = none →
        (handleVote votes d now).1 = votes ++
          [{ userId := d.userId, statementId := sid, vote := v, timestamp := now }]) := by
  have hcond : ¬ (d.userId = "" ∨ ¬ (v = -1 ∨ v = 0 ∨ v = 1)) := by
    push_neg
    exact ⟨hu, hval⟩
  refine ⟨?_, ?_, ?_⟩
  · intro ht
    simp only [handleVote, hsid, hv]
    rw [if_neg hcond]
    simp [ht]
  · intro t ht htne
    simp only [handleVote, hsid, hv]
    rw [if_neg hcond]
    simp [ht, htne]
  · intro ht
    simp only [handleVote, hsid, hv]
    rw [if_neg hcond]
    simp [ht]

/-- Witness for C10: the hypotheses discharged at concrete valid records
whose provided timestamp is `0`, `500` and absent respectively. -/
theorem submitVote_timestamp_witness :
    (handleVote [] ⟨"u1", some 5, some 1, some 0⟩ 777).1 =
      [{ userId := "u1", statementId := 5, vote := 1, timestamp := 777 }] ∧
    (handleVote [] ⟨"u1", some 5, some 1, some 500⟩ 777).1 =
      [{ userId := "u1", statementId := 5, vote := 1, timestamp := 500 }] ∧
    (handleVote [] ⟨"u1", some 5, some 1, none⟩ 777).1 =
      [{ userId := "u1", statementId := 5, vote := 1, timestamp := 777 }] := by
  refine ⟨?_, ?_, ?_⟩
  · exact (submitVote_timestamp [] ⟨"u1", some 5, some 1, some 0⟩ 777 5 1 rfl rfl
      (by simp) (Or.inr (Or.inr rfl))).1 rfl
  · exact (submitVote_timestamp [] ⟨"u1", some 5, some 1, some 500⟩ 777 5 1 rfl rfl
      (by simp) (Or.inr (Or.inr rfl))).2.1 500 rfl (by norm_num)
  · exact (submitVote_timestamp [] ⟨"u1", some 5, some 1, none⟩ 777 5 1 rfl rfl
      (by simp) (Or.inr (Or.inr rfl))).2.2 rfl

/-! ### Procedural ghost cursor simulator (`server.ts:194-443`) -/

/-- One synthetic cursor (the element type of `this.ghostCursors`). -/
structure GhostCursor where
  id : String
  x : ℚ
  y : ℚ
  targetX : ℚ
  targetY : ℚ
  isMoving : Bool
  moveStartTime : ℚ
  moveDuration : ℚ
  voteAreaX : ℚ
  voteAreaY : ℚ
  noiseOffsetX : ℚ
  noiseOffsetY : ℚ
  restingSpeed : ℚ
  restingRadius : ℚ
  transitionStartTime : ℚ
  transitionDuration : ℚ
  finalMoveX : ℚ
  finalMoveY : ℚ
  deriving DecidableEq, Repr

/-- `easeInOutCubic` (`server.ts:387-389`); `Math.pow(u, 3)` is written as
`u * u * u`. -/
def easeInOutCubic (t : ℚ) : ℚ :=
  if t < 0.5 then 4 * t * t * t
  else 1 - (-2 * t + 2) * (-2 * t + 2) * (-2 * t + 2) / 2

/-- `Math.max(0, Math.min(100, v))`. -/
def clampCoord (v : ℚ) : ℚ := max 0 (min 100 v)

/-- The `position` payload of the `move` event a tick broadcasts for each
cursor. -/
structure CursorMoveMsg where
  x : ℚ
  y : ℚ
  timestamp : ℚ
  userId : String
  deriving DecidableEq, Repr

/-- One cursor's step of `updateGhostCursors` (`server.ts:316-385`): advance
the motion phase, then build the unconditionally broadcast (and clamped)
`move` event.  `noise2D` is the external coherent-noise function;
`Math.sqrt(dx^2+dy^2) < 2` is embedded as `dx*dx+dy*dy < 4` (both sides are
nonnegative and squaring is monotone).  The moving branch does NOT clamp the
stored position; the non-moving branch does (`server.ts:370-371`). -/
def updateGhostCursor (noise2D : ℚ → ℚ → ℚ) (now : ℚ) (cursor : GhostCursor) :
    GhostCursor × CursorMoveMsg :=
  let next :=
    if cursor.isMoving = true ∧ cursor.moveStartTime ≤ now then
      let elapsed := now - cursor.moveStartTime
      let progress := min (elapsed / cursor.moveDuration) 1
      let easeProgress := easeInOutCubic progress
      let newX := cursor.x + (cursor.targetX - cursor.x) * easeProgress * 0.1
      let newY := cursor.y + (cursor.targetY - cursor.y) * easeProgress * 0.1
      let distSq := (cursor.targetX - newX) * (cursor.targetX - newX) +
        (cursor.targetY - newY) * (cursor.targetY - newY)
      if distSq < 4 ∨ 1 ≤ progress then
        { cursor with
          x := newX
          y := newY
          isMoving := false
          transitionStartTime := now
          finalMoveX := newX
          finalMoveY := newY
          voteAreaX := newX
          voteAreaY := newY }
      else
        { cursor with x := newX, y := newY }
    else if cursor.isMoving = false then
      let transitionProgress := min ((now - cursor.transitionStartTime) / cursor.transitionDuration) 1
      let time := now * 0.0005 * cursor.restingSpeed
      let noiseTargetX := cursor.voteAreaX + noise2D cursor.noiseOffsetX time * cursor.restingRadius
      let noiseTargetY := cursor.voteAreaY + noise2D cursor.noiseOffsetY time * cursor.restingRadius
      let posX :=
        if transitionProgress < 1 then
          cursor.finalMoveX + (noiseTargetX - cursor.finalMoveX) * easeInOutCubic transitionProgress
        else noiseTargetX
      let posY :=
        if transitionProgress < 1 then
          cursor.finalMoveY + (noiseTargetY - cursor.finalMoveY) * easeInOutCubic transitionProgress
        else noiseTargetY
      { cursor with x := clampCoord posX, y := clampCoord posY }
    else cursor
  (next,
   { x := clampCoord next.x
     y := clampCoord next.y
     timestamp := now
     userId := cursor.id })

/-- The tick body over the whole population: each cursor is advanced and a
`move` event is broadcast for each. -/
def updateGhostCursors (noise2D : ℚ → ℚ → ℚ) (now : ℚ)
    (cursors : List GhostCursor) : List GhostCursor × List CursorMoveMsg :=
  (cursors.map (fun c => (updateGhostCursor noise2D now c).1),
   cursors.map (fun c => (updateGhostCursor noise2D now c).2))

/-- The `Math.random()` draws one iteration of the spawn loop
(`server.ts:239-295`) consumes, made explicit: each `rand` field is a draw
in `[0,1)`, `side` is `Math.floor(Math.random()*4)` and `targetIndex` is
`Math.floor(Math.random()*3)`. -/
structure CursorDraw where
  id : String
  side : ℕ
  edgeRand : ℚ
  targetIndex : ℕ
  activeRand : ℚ
  speedRand : ℚ
  radiusRand : ℚ
  startDelayRand : ℚ
  durationRand : ℚ
  noiseRandX : ℚ
  noiseRandY : ℚ
  deriving DecidableEq, Repr

/-- The three vote areas (`server.ts:233-237`). -/
def voteAreas : List (ℚ × ℚ) := [(97, 8), (3, 85), (97, 85)]

/-- One iteration of the spawn loop in `initializeGhostCursors`
(`server.ts:239-295`): edge-of-canvas start position, random vote-area
target, two-population resting characteristics, staggered start. -/
def mkGhostCursor (now : ℚ) (d : CursorDraw) : GhostCursor :=
  let start : ℚ × ℚ :=
    match d.side with
    | 0 => (d.edgeRand * 100, -5)
    | 1 => (105, d.edgeRand * 100)
    | 2 => (d.edgeRand * 100, 105)
    | _ => (-5, d.edgeRand * 100)
  let targetArea := voteAreas.getD d.targetIndex (97, 8)
  let isActiveCursor := d.activeRand < 0.3
  { id := d.id
    x := start.1
    y := start.2
    targetX := targetArea.1
    targetY := targetArea.2
    isMoving := true
    moveStartTime := now + d.startDelayRand * 2000
    moveDuration := 3000 + d.durationRand * 2000
    voteAreaX := targetArea.1
    voteAreaY := targetArea.2
    noiseOffsetX := d.noiseRandX * 1000
    noiseOffsetY := d.noiseRandY * 1000
    restingSpeed := if isActiveCursor then 0.8 + d.speedRand * 0.7
      else 0.2 + d.speedRand * 0.4
    restingRadius := if isActiveCursor then 4 + d.radiusRand * 4
      else 2 + d.radiusRand * 3
    transitionStartTime := 0
    transitionDuration := 2000
    finalMoveX := start.1
    finalMoveY := start.2 }

/-- `initializeGhostCursors` (`server.ts:229-296`): the loop `for i < 10`
spawning the whole population at once. -/
def initializeGhostCursors (now : ℚ) (draws : ℕ → CursorDraw) :
    List GhostCursor :=
  (List.range 10).map (fun i => mkGhostCursor now (draws i))

/-! ### Room coordinator state and message handlers -/

/-- The server's per-room mutable fields (`server.ts:50-72`). -/
structure ServerState where
  activeStatementId : Int
  allSelectedStatements : List QueueItem
  votes : List Vote
  ghostCursorsEnabled : Bool
  ghostCursors : List GhostCursor

/-- The `setActiveStatement` branch of `onMessage` (`server.ts:106-114`):
update the cached `activeStatementId` and broadcast
`activeStatementChanged`. -/
def handleSetActiveStatement (s : ServerState) (statementId : Int) :
    ServerState × OutMsg :=
  ({ s with activeStatementId := statementId },
   OutMsg.activeStatementChanged statementId)

/-- `setGhostCursorsEnabled` (`server.ts:194-222`): enabling recreates the
whole population; disabling broadcasts one `remove` event per live cursor,
clears the population, and either way `ghostCursorsChanged` is broadcast
last.  (The tick timer arm/disarm is real time and is not modelled.) -/
def setGhostCursorsEnabled (s : ServerState) (enabled : Bool) (now : ℚ)
    (draws : ℕ → CursorDraw) : ServerState × List OutMsg :=
  if enabled then
    ({ s with
       ghostCursorsEnabled := true
       ghostCursors := initializeGhostCursors now draws },
     [OutMsg.ghostCursorsChanged true])
  else
    ({ s with ghostCursorsEnabled := false, ghostCursors := [] },
     s.ghostCursors.map (fun c => OutMsg.removeCursor c.id now)
       ++ [OutMsg.ghostCursorsChanged false])

lemma clampCoord_bounds (v : ℚ) : 0 ≤ clampCoord v ∧ clampCoord v ≤ 100 :=
  ⟨le_max_left 0 _, max_le (by norm_num) (min_le_left _ _)⟩

lemma updateGhostCursor_notMoving_fst (noise2D : ℚ → ℚ → ℚ) (now : ℚ)
    (c : GhostCursor) (hmov : c.isMoving = false) :
    ∃ px py, (updateGhostCursor noise2D now c).1.x = clampCoord px ∧
      (updateGhostCursor noise2D now c).1.y = clampCoord py := by
  unfold updateGhostCursor
  rw [if_neg (by simp [hmov]), if_pos hmov]
  exact ⟨_, _, rfl, rfl⟩

/-- A concrete spawn draw for the counterexample: the top edge
(`side = 0`) puts the start position at `(50, -5)`, and the staggered start
delay (`Math.random() * 2000` drawn as `1000`) keeps the cursor parked
there for the first ticks. -/
def ghostDraw0 : CursorDraw :=
  { id := "ghost0"
    side := 0
    edgeRand := 1/2
    targetIndex := 0
    activeRand := 1/2
    speedRand := 0
    radiusRand := 0
    startDelayRand := 1/2
    durationRand := 0
    noiseRandX := 0
    noiseRandY := 0 }

/-- Counterexample for C6: a freshly spawned cursor (a member of the
population `initializeGhostCursors` creates) still holds the off-canvas
position `y = -5` after a tick of the simulator, because the approach
branch never clamps the stored position and the staggered start leaves the
edge spawn point untouched. -/
theorem ghostCursor_position_counterexample :
    mkGhostCursor 0 ghostDraw0 ∈ initializeGhostCursors 0 (fun _ => ghostDraw0) ∧
    (updateGhostCursor (fun _ _ => 0) 100 (mkGhostCursor 0 ghostDraw0)).1.y = -5 ∧
    ¬ (0 ≤ (updateGhostCursor (fun _ _ => 0) 100 (mkGhostCursor 0 ghostDraw0)).1.y) := by
  refine ⟨List.mem_map.mpr ⟨0, by decide, rfl⟩, ?_, ?_⟩
  · norm_num [updateGhostCursor, mkGhostCursor, ghostDraw0, voteAreas]
  · norm_num [updateGhostCursor, mkGhostCursor, ghostDraw0, voteAreas]

/-- C6 (amended): the position each tick broadcasts for a cursor is always
clamped to `[0,100]` on both axes, and a cursor in the settle/idle phase
(`isMoving = false`) stores a position within `[0,100]` on both axes after
the tick; a cursor still in its approach phase, however, may store an
off-canvas position (the approach branch does not clamp, and cursors spawn
at off-canvas edge points). -/
theorem ghostCursor_clamped (noise2D : ℚ → ℚ → ℚ) (now : ℚ) (c : GhostCursor) :
    (0 ≤ (updateGhostCursor noise2D now c).2.x ∧
      (updateGhostCursor noise2D now c).2.x ≤ 100 ∧
      0 ≤ (updateGhostCursor noise2D now c).2.y ∧
      (updateGhostCursor noise2D now c).2.y ≤ 100)
  ∧ (c.isMoving = false →
      0 ≤ (updateGhostCursor noise2D now c).1.x ∧
      (updateGhostCursor noise2D now c).1.x ≤ 100 ∧
      0 ≤ (updateGhostCursor noise2D now c).1.y ∧
      (updateGhostCursor noise2D now c).1.y ≤ 100) := by
  constructor
  · exact ⟨(clampCoord_bounds _).1, (clampCoord_bounds _).2,
      (clampCoord_bounds _).1, (clampCoord_bounds _).2⟩
  · intro hmov
    obtain ⟨px, py, hx, hy⟩ := updateGhostCursor_notMoving_fst noise2D now c hmov
    rw [hx, hy]
    exact ⟨(clampCoord_bounds _).1, (clampCoord_bounds _).2,
      (clampCoord_bounds _).1, (clampCoord_bounds _).2⟩

/-- C7: enabling the simulation always yields exactly 10 live ghost
cursors; disabling broadcasts exactly one `remove` event per live cursor
(and nothing else before them) before the population is emptied, followed
only by the `ghostCursorsChanged` notification. -/
theorem setGhostCursors_population (s : ServerState) (now : ℚ)
    (draws : ℕ → CursorDraw) :
    ((setGhostCursorsEnabled s true now draws).1.ghostCursors.length = 10)
  ∧ ((setGhostCursorsEnabled s true now draws).1.ghostCursorsEnabled = true)
  ∧ ((setGhostCursorsEnabled s false now draws).1.ghostCursors = [])
  ∧ ((setGhostCursorsEnabled s false now draws).2 =
      s.ghostCursors.map (fun c => OutMsg.removeCursor c.id now)
        ++ [OutMsg.ghostCursorsChanged false])
  ∧ ((s.ghostCursors.map (fun c => OutMsg.removeCursor c.id now)).length =
      s.ghostCursors.length) := by
  refine ⟨?_, rfl, rfl, rfl, ?_⟩
  · simp [setGhostCursorsEnabled, initializeGhostCursors]
  · simp

/-- C9: the `setActiveStatement` message updates only the cached
`activeStatementId` field and broadcasts `activeStatementChanged`; the
queue (and every other field) is unchanged, so the derived active id is
unaffected — in particular, after `setActiveStatement` caches the sentinel
`-1`, a subsequent enqueue still takes the 10-second-delay path whenever
the queue itself does not derive `-1`. -/
theorem setActiveStatement_frame (s : ServerState) (statementId sid2 : Int)
    (now t : ℚ) :
    ((handleSetActiveStatement s statementId).1.activeStatementId = statementId)
  ∧ ((handleSetActiveStatement s statementId).1.allSelectedStatements =
      s.allSelectedStatements)
  ∧ ((handleSetActiveStatement s statementId).1.votes = s.votes)
  ∧ ((handleSetActiveStatement s statementId).1.ghostCursorsEnabled =
      s.ghostCursorsEnabled)
  ∧ ((handleSetActiveStatement s statementId).1.ghostCursors = s.ghostCursors)
  ∧ ((handleSetActiveStatement s statementId).2 =
      OutMsg.activeStatementChanged statementId)
  ∧ (getCurrentActiveStatementId
        (handleSetActiveStatement s statementId).1.allSelectedStatements t =
      getCurrentActiveStatementId s.allSelectedStatements t)
  ∧ (getCurrentActiveStatementId s.allSelectedStatements now ≠ -1 →
      (queueStatement
          (handleSetActiveStatement s (-1)).1.allSelectedStatements sid2 now).1 =
        s.allSelectedStatements ++ [⟨sid2, now + 10000⟩]) := by
  refine ⟨rfl, rfl, rfl, rfl, rfl, rfl, rfl, ?_⟩
  intro h
  simp [handleSetActiveStatement, queueStatement, h]

end ReactionCanvas
